import Mathlib

/-
Verification of the File-Explorer search core (src/File-Explorer/src/main.rs).

Modelling conventions:
  * A filesystem path is modelled as its list of components (`List String`);
    `PathBuf::from`, `Path::join` and `display()` become list operations.
  * The filesystem snapshot seen by a scan is a tree value (`FSNode`); the
    `fs` calls of the source (`is_dir`, `is_file`, `read_dir`, `file_name`,
    `to_str`) are read off that tree.
  * A function whose Rust original can panic (`unwrap` on `Regex::new`,
    `expect` on `read_dir`) returns `Option`: `none` models the panic, in
    which case the worker thread dies and nothing is ever delivered.
  * The regex crate is external to the repository; it is modelled on the
    fragment of patterns exercised by the specification: patterns built from
    literal (non-metacharacter) characters and grouping parentheses.  On that
    fragment, `Regex::new("(?i)" ++ term)` succeeds iff the parentheses are
    balanced, and the resulting matcher tests case-insensitive (ASCII
    folding) containment of the flattened literal.  `patternModelled`
    delimits the fragment; theorems that depend on compile semantics carry it
    as a hypothesis.
-/

/-- Kind of a directory entry as classified by `entry.path().is_file()` /
`is_dir()` in main.rs line 133.  `other` is an entry that is neither a
regular file nor a directory (e.g. a broken symlink); `missing` is a path
that does not resolve at all. -/
inductive FSNode where
  | file : FSNode
  | dir : Bool → List (Option (Option String × FSNode)) → FSNode
  | other : FSNode
  | missing : FSNode

/- A `dir` carries a `readable` flag (can `fs::read_dir` open it) and the
items its `read_dir` iterator yields.  An item `none` models an `Err` result
from the iterator (skipped by `if let Ok(entry)` on line 132); an item
`some (name?, node)` is an entry whose `file_name().to_str()` gives
`name?` (`none` when the name is not valid UTF-8, line 134) and whose
target is `node`. -/

/-- `dir.is_dir()` of main.rs line 130 read off the tree. -/
def isDirNode : FSNode → Bool
  | .dir _ _ => true
  | _ => false

/-- `entry.path().is_file() || entry.path().is_dir()` of main.rs line 133. -/
def isFileOrDir : FSNode → Bool
  | .file => true
  | .dir _ _ => true
  | _ => false

/-- Regex-crate metacharacters; a pattern avoiding these (apart from the
grouping parentheses) is inside the modelled fragment. -/
def regexMeta (c : Char) : Bool :=
  c == '\\' || c == '.' || c == '+' || c == '*' || c == '?' || c == '(' ||
  c == ')' || c == '|' || c == '[' || c == ']' || c == '\x7b' ||
  c == '\x7d' || c == '^' || c == '$'

/-- The pattern fragment on which the regex crate is modelled: literal
characters plus grouping parentheses. -/
def patternModelled (term : String) : Bool :=
  term.toList.all (fun c => c == '(' || c == ')' || !regexMeta c)

/-- Strip grouping parentheses, keeping the literal characters; `none` when
the parentheses are unbalanced (the regex crate rejects the pattern).  The
`Nat` argument is the current nesting depth. -/
def flattenAux : List Char → Nat → Option (List Char)
  | [], 0 => some []
  | [], _ + 1 => none
  | '(' :: rest, d => flattenAux rest (d + 1)
  | ')' :: _, 0 => none
  | ')' :: rest, d + 1 => flattenAux rest d
  | c :: rest, d => (flattenAux rest d).map (fun l => c :: l)

/-- The compiled matcher of main.rs line 122: on the modelled fragment a
successfully compiled `Regex::new("(?i)" ++ term)` is determined by the
flattened literal of `term`. -/
structure CompiledRegex where
  lit : List Char
deriving DecidableEq, Repr

/-- `Regex::new(&format!("(?i){}", search_term))` (main.rs line 122) on the
modelled fragment: `none` is a compile error (the `.unwrap()` panics). -/
def regexNew (term : String) : Option CompiledRegex :=
  (flattenAux term.toList 0).map CompiledRegex.mk

/-- `l₁` occurs as a prefix of `l₂`. -/
def beginsWith : List Char → List Char → Bool
  | [], _ => true
  | _ :: _, [] => false
  | a :: as, b :: bs => a == b && beginsWith as bs

/-- `pat` occurs as a contiguous run inside `s`. -/
def hasSub (pat : List Char) : List Char → Bool
  | [] => beginsWith pat []
  | s@(_ :: rest) => beginsWith pat s || hasSub pat rest

/-- `regex.is_match(name)` (main.rs line 135): with the `(?i)` flag the
literal matches anywhere in the name, case-insensitively (ASCII folding). -/
def isMatch (r : CompiledRegex) (name : String) : Bool :=
  hasSub (r.lit.map Char.toLower) (name.toList.map Char.toLower)

/-- The body of the per-entry loop of main.rs lines 133-138: an eligible,
UTF-8-named, matching child contributes `dir ++ [name]`
(`entry.path().display().to_string()`), every other child contributes
nothing. -/
def childResult (dir : List String) (r : CompiledRegex)
    (c : Option String × FSNode) : Option (List String) :=
  if isFileOrDir c.2 then
    match c.1 with
    | some name => if isMatch r name then some (dir ++ [name]) else none
    | none => none
  else none

/-- `search_files_recursive` (main.rs lines 128-144).  Despite its name the
source contains no recursive call: it inspects only the direct children of
`dir`.  `none` models the `.expect("read_dir call failed")` panic when `dir`
is a directory that cannot be read; a non-directory `dir` skips the loop and
yields the empty accumulator. -/
def searchFilesRecursive (dir : List String) (node : FSNode)
    (r : CompiledRegex) : Option (List (List String)) :=
  match node with
  | .dir true children =>
      some (children.filterMap (fun item => item.bind (childResult dir r)))
  | .dir false _ => none
  | _ => some []

/-- `search_files` (main.rs lines 121-126): compile the pattern (panicking on
a compile error) and run the walk over the snapshot `tree` rooted at
`root`. -/
def searchFiles (root : List String) (term : String) (tree : FSNode) :
    Option (List (List String)) :=
  match regexNew term with
  | none => none
  | some r => searchFilesRecursive root tree r

/-- The application state (main.rs lines 34-40); `root_path` is kept in path
components, `search_results` as the delivered path lists. -/
structure AppState where
  root_path : List String
  search_term : String
  search_results : List (List String)
deriving DecidableEq, Repr

/-- The Search button's click handler (main.rs lines 54-68): it clears
`search_results` immediately and captures `(root_path, search_term)` by value
for the worker it spawns.  Returns the updated state and the captured
request. -/
def onSearchClick (s : AppState) : AppState × (List String × String) :=
  ({ s with search_results := [] }, (s.root_path, s.search_term))

/-- The commands the `Delegate` can receive (main.rs lines 158-170).
`updateSearchResults` carries a completed result list from a worker;
`showOpenPanel` carries the outcome of the native folder picker
(`rfd::FileDialog::pick_folder`, external collaborator): `some folder` when
the user confirms a folder, `none` when they cancel. -/
inductive DelegateCmd where
  | updateSearchResults : List (List String) → DelegateCmd
  | showOpenPanel : Option (List String) → DelegateCmd
deriving DecidableEq, Repr

/-- `Delegate::command` (main.rs lines 149-172): returns the updated state
and whether the command was handled (`druid::Handled`). -/
def delegateCommand (s : AppState) (cmd : DelegateCmd) : AppState × Bool :=
  match cmd with
  | .updateSearchResults results => ({ s with search_results := results }, true)
  | .showOpenPanel (some folder) =>
      ({ s with root_path := folder, search_results := [] }, true)
  | .showOpenPanel none => (s, false)

/-- The spawned worker's body (main.rs lines 63-68): run `search_files` and,
when it returns, submit the result list as an `UPDATE_SEARCH_RESULTS`
command.  `none` models a worker whose search panicked: nothing is ever
submitted, so the UI never hears from this request again. -/
def workerDelivery (root : List String) (term : String) (tree : FSNode) :
    Option DelegateCmd :=
  (searchFiles root term tree).map DelegateCmd.updateSearchResults

/-- The surface classification of a node: which of the four kinds it is,
forgetting a directory's readability and contents. -/
inductive KindTag where
  | file : KindTag
  | dir : KindTag
  | other : KindTag
  | missing : KindTag
deriving DecidableEq, Repr

/-- The kind of a node. -/
def kindOf : FSNode → KindTag
  | .file => .file
  | .dir _ _ => .dir
  | .other => .other
  | .missing => .missing

/-- `isFileOrDir` factored through the kind. -/
def kindIsFileOrDir : KindTag → Bool
  | .file => true
  | .dir => true
  | _ => false

/-- Everything the per-entry loop can observe about one `read_dir` item: was
it `Ok`, the decoded name, and the entry's kind.  The contents and
readability of a child directory are not part of the shape. -/
def itemShape (item : Option (Option String × FSNode)) :
    Option (Option String × KindTag) :=
  item.map (fun c => (c.1, kindOf c.2))

/-- The §8 scenario tree: root `a` holding `foo.txt`, directory `Foo`
(itself holding `foobar.txt`), and directory `baz` (holding `qux.txt`). -/
def scenarioTree : FSNode :=
  .dir true
    [ some (some "foo.txt", .file),
      some (some "Foo", .dir true [ some (some "foobar.txt", .file) ]),
      some (some "baz", .dir true [ some (some "qux.txt", .file) ]) ]

/-- A root holding one directory `a` which holds one file `b`: two entries
transitively. -/
def nestedTree : FSNode :=
  .dir true [ some (some "a", .dir true [ some (some "b", .file) ]) ]

/-- A state with one displayed result and a syntactically invalid search
term. -/
def displayedState : AppState :=
  { root_path := [ "r" ], search_term := "(",
    search_results := [ [ "r", "old.txt" ] ] }

/-- Root children: a readable subdirectory `sub` holding `deep.txt`, next to
file `keep.txt`. -/
def readableSiblings : List (Option (Option String × FSNode)) :=
  [ some (some "sub", .dir true [ some (some "deep.txt", .file) ]),
    some (some "keep.txt", .file) ]

/-- The same children with `sub` made unreadable. -/
def unreadableSiblings : List (Option (Option String × FSNode)) :=
  [ some (some "sub", .dir false []),
    some (some "keep.txt", .file) ]

/-- A child contributes a path only when its name decodes, its kind is file
or directory, and the name matches. -/
theorem childResult_some {dir : List String} {r : CompiledRegex}
    {c : Option String × FSNode} {p : List String}
    (h : childResult dir r c = some p) :
    ∃ name, c.1 = some name ∧ isFileOrDir c.2 = true ∧
      isMatch r name = true ∧ p = dir ++ [name] := by
  obtain ⟨n, node⟩ := c
  by_cases hk : isFileOrDir node = true
  · cases n with
    | none => simp [childResult, hk] at h
    | some name =>
        by_cases hmatch : isMatch r name = true
        · have h' : dir ++ [name] = p := by
            simpa [childResult, hk, hmatch] using h
          exact ⟨name, rfl, hk, hmatch, h'.symm⟩
        · simp [childResult, hk, hmatch] at h
  · simp [childResult, hk] at h

/-- Membership in a completed scan, traced back to the child it came from. -/
theorem mem_scan {dir : List String} {node : FSNode} {r : CompiledRegex}
    {res : List (List String)} {p : List String}
    (hs : searchFilesRecursive dir node r = some res) (hp : p ∈ res) :
    ∃ name nd children, node = FSNode.dir true children ∧
      some (some name, nd) ∈ children ∧ isFileOrDir nd = true ∧
      isMatch r name = true ∧ p = dir ++ [name] := by
  cases node with
  | dir readable children =>
      cases readable with
      | false => exact absurd hs (by simp [searchFilesRecursive])
      | true =>
          simp only [searchFilesRecursive, Option.some.injEq] at hs
          subst hs
          rw [List.mem_filterMap] at hp
          obtain ⟨item, hitem, hres⟩ := hp
          cases item with
          | none => exact absurd hres (by simp)
          | some c =>
              have hres' : childResult dir r c = some p := hres
              obtain ⟨name, h1, h2, h3, h4⟩ := childResult_some hres'
              obtain ⟨n, nd⟩ := c
              cases h1
              exact ⟨name, nd, children, rfl, hitem, h2, h3, h4⟩
  | file =>
      simp only [searchFilesRecursive, Option.some.injEq] at hs
      subst hs
      exact absurd hp (by simp)
  | other =>
      simp only [searchFilesRecursive, Option.some.injEq] at hs
      subst hs
      exact absurd hp (by simp)
  | missing =>
      simp only [searchFilesRecursive, Option.some.injEq] at hs
      subst hs
      exact absurd hp (by simp)

/-- `isFileOrDir` only looks at the kind of a node. -/
theorem isFileOrDir_kind (n : FSNode) :
    isFileOrDir n = kindIsFileOrDir (kindOf n) := by
  cases n <;> rfl

/-- A child's contribution depends only on its decoded name and its kind. -/
theorem childResult_congr_shape {dir : List String} {r : CompiledRegex}
    (n : Option String) (nd nd' : FSNode)
    (h2 : kindOf nd = kindOf nd') :
    childResult dir r (n, nd) = childResult dir r (n, nd') := by
  have hfd : isFileOrDir nd = isFileOrDir nd' := by
    rw [isFileOrDir_kind, isFileOrDir_kind, h2]
  simp only [childResult, hfd]

/-- The accumulated list of a readable directory's loop depends only on the
shapes of the `read_dir` items, not on the contents or readability of child
directories. -/
theorem scan_depends_on_shapes (dir : List String) (r : CompiledRegex)
    (cs cs' : List (Option (Option String × FSNode)))
    (h : cs.map itemShape = cs'.map itemShape) :
    cs.filterMap (fun item => item.bind (childResult dir r)) =
      cs'.filterMap (fun item => item.bind (childResult dir r)) := by
  induction cs generalizing cs' with
  | nil =>
      cases cs' with
      | nil => rfl
      | cons b bs => simp at h
  | cons a as ih =>
      cases cs' with
      | nil => simp at h
      | cons b bs =>
          simp only [List.map_cons, List.cons.injEq] at h
          obtain ⟨hab, htail⟩ := h
          have hfun : a.bind (childResult dir r) = b.bind (childResult dir r) := by
            cases a with
            | none =>
                cases b with
                | none => rfl
                | some c => simp [itemShape] at hab
            | some c =>
                cases b with
                | none => simp [itemShape] at hab
                | some c' =>
                    obtain ⟨c1, c2⟩ := c
                    obtain ⟨c1', c2'⟩ := c'
                    simp only [itemShape, Option.map_some', Option.some.injEq,
                      Prod.mk.injEq] at hab
                    obtain ⟨h1, h2⟩ := hab
                    subst h1
                    show childResult dir r (c1, c2) = childResult dir r (c1, c2')
                    exact childResult_congr_shape c1 c2 c2' h2
          rw [List.filterMap_cons, List.filterMap_cons, hfun, ih bs htail]

/-- C1: the code at the §8 scenario (pattern `foo`, with `foobar.txt` inside
`Foo`).  The claim says the Scanner recurses into every child directory, so
`a/Foo/foobar.txt` appears; the code's `search_files_recursive` contains no
recursive call, so the scan returns only the matching direct children of the
root and `a/Foo/foobar.txt` is absent. -/
theorem C1_no_recursion_eval :
    searchFiles [ "a" ] "foo" scenarioTree =
      some [ [ "a", "foo.txt" ], [ "a", "Foo" ] ] ∧
    [ "a", "Foo", "foobar.txt" ] ∉
      (searchFiles [ "a" ] "foo" scenarioTree).getD [] := by
  decide

/-- C2: the code with the empty pattern on a root holding directory `a`
which holds file `b` (N = 2 transitive entries).  The claim says the result
is exactly those N entries; the code returns only the direct child `r/a`,
omitting `r/a/b`. -/
theorem C2_empty_pattern_eval :
    searchFiles [ "r" ] "" nestedTree = some [ [ "r", "a" ] ] ∧
    [ "r", "a", "b" ] ∉ (searchFiles [ "r" ] "" nestedTree).getD [] := by
  decide

/-- C3 counterexample: for the syntactically invalid pattern `(` the claim
requires a `CompileError` surfaced to the requester.  In the code the
`.unwrap()` on `Regex::new` makes the worker die, and the worker's only
communication channel is `UPDATE_SEARCH_RESULTS` (a result list): nothing at
all is delivered, so no `CompileError` reaches the requester. -/
theorem C3_counterexample :
    regexNew "(" = none ∧
    workerDelivery [ "r" ] "(" (.dir true []) = none := by
  decide

/-- C3 amended: a syntactically invalid pattern makes the pattern-compile
`unwrap` fail before any traversal begins, so no result list is ever
produced and nothing is delivered to the requester — but the failure is a
worker panic, not a surfaced `CompileError`. -/
theorem C3_invalid_pattern_kills_worker (root : List String) (term : String)
    (tree : FSNode)
    (_hmod : patternModelled term = true)
    (hc : regexNew term = none) :
    searchFiles root term tree = none ∧
    workerDelivery root term tree = none := by
  have h1 : searchFiles root term tree = none := by
    simp only [searchFiles, hc]
  exact ⟨h1, by simp only [workerDelivery, h1, Option.map_none']⟩

/-- C3 witness: the amended statement at pattern `(` over an empty readable
root. -/
theorem C3_invalid_pattern_kills_worker_witness :
    searchFiles [ "r" ] "(" (.dir true []) = none ∧
    workerDelivery [ "r" ] "(" (.dir true []) = none :=
  C3_invalid_pattern_kills_worker [ "r" ] "(" (.dir true [])
    (by decide) (by decide)

/-- C4 counterexample: with a result list on display and the invalid search
term `(`, clicking Search clears the displayed list immediately (main.rs
line 59), and the failing worker then delivers nothing — the previous
results are gone, contradicting the claim that a failing request leaves the
displayed list unchanged. -/
theorem C4_counterexample :
    (onSearchClick displayedState).1.search_results ≠
      displayedState.search_results ∧
    workerDelivery (onSearchClick displayedState).2.1
      (onSearchClick displayedState).2.2 (.dir true []) = none := by
  decide

/-- C4 amended: clicking Search clears the displayed result list at issue
time (leaving the input fields unchanged); when the pattern fails to
compile the worker delivers nothing, so the display stays empty instead of
retaining the previous results. -/
theorem C4_failed_search_leaves_cleared_list (s : AppState) (tree : FSNode)
    (_hmod : patternModelled s.search_term = true)
    (hc : regexNew s.search_term = none) :
    (onSearchClick s).1.search_results = [] ∧
    (onSearchClick s).1.root_path = s.root_path ∧
    (onSearchClick s).1.search_term = s.search_term ∧
    workerDelivery (onSearchClick s).2.1 (onSearchClick s).2.2 tree = none := by
  refine ⟨rfl, rfl, rfl, ?_⟩
  have h1 : searchFiles s.root_path s.search_term tree = none := by
    simp only [searchFiles, hc]
  simp only [onSearchClick, workerDelivery, h1, Option.map_none']

/-- C4 witness: the amended statement at the displayed state with invalid
term `(`. -/
theorem C4_failed_search_leaves_cleared_list_witness :
    (onSearchClick displayedState).1.search_results = [] ∧
    (onSearchClick displayedState).1.root_path = displayedState.root_path ∧
    (onSearchClick displayedState).1.search_term =
      displayedState.search_term ∧
    workerDelivery (onSearchClick displayedState).2.1
      (onSearchClick displayedState).2.2 (.dir true []) = none :=
  C4_failed_search_leaves_cleared_list displayedState (.dir true [])
    (by decide) (by decide)

/-- C5: a read failure on a subdirectory is invisible to the scan: the
result of scanning a readable root depends only on the names and kinds of
the `read_dir` items (the shapes), never on a child directory's readability
or contents, and the scan always completes (`isSome`).  In particular
making any subdirectory unreadable changes nothing and aborts nothing. -/
theorem C5_subdir_read_errors_isolated (dir : List String) (r : CompiledRegex)
    (cs cs' : List (Option (Option String × FSNode)))
    (h : cs.map itemShape = cs'.map itemShape) :
    (searchFilesRecursive dir (.dir true cs') r).isSome = true ∧
    searchFilesRecursive dir (.dir true cs') r =
      searchFilesRecursive dir (.dir true cs) r := by
  refine ⟨rfl, ?_⟩
  simp only [searchFilesRecursive]
  exact congrArg some (scan_depends_on_shapes dir r cs' cs h.symm)

/-- C5 witness: making subdirectory `sub` unreadable leaves the completed
scan result untouched. -/
theorem C5_subdir_read_errors_isolated_witness :
    (searchFilesRecursive [ "r" ] (.dir true unreadableSiblings) ⟨[]⟩).isSome
      = true ∧
    searchFilesRecursive [ "r" ] (.dir true unreadableSiblings) ⟨[]⟩ =
      searchFilesRecursive [ "r" ] (.dir true readableSiblings) ⟨[]⟩ :=
  C5_subdir_read_errors_isolated [ "r" ] ⟨[]⟩ readableSiblings
    unreadableSiblings (by decide)

/-- C6 counterexample: a root that exists and is a directory but cannot be
read.  The claim requires an empty result list without crashing; the code's
`.expect("read_dir call failed")` makes the worker die instead (`none`),
so no (empty) result list is produced. -/
theorem C6_counterexample :
    searchFiles [ "r" ] "" (.dir false []) ≠ some [] ∧
    searchFiles [ "r" ] "" (.dir false []) = none := by
  decide

/-- C6 amended: a root path that does not exist or is not a directory gives
an empty result list without crashing; but a root that is an unreadable
directory makes the worker die on the `read_dir` expect, delivering
nothing. -/
theorem C6_unreadable_root_crashes_worker (root : List String) (term : String)
    (r : CompiledRegex)
    (_hmod : patternModelled term = true)
    (hc : regexNew term = some r) :
    searchFiles root term .missing = some [] ∧
    searchFiles root term .file = some [] ∧
    searchFiles root term .other = some [] ∧
    ∀ cs, searchFiles root term (.dir false cs) = none := by
  refine ⟨?_, ?_, ?_, fun cs => ?_⟩ <;>
    simp only [searchFiles, hc, searchFilesRecursive]

/-- C6 witness: the amended statement at the empty pattern. -/
theorem C6_unreadable_root_crashes_worker_witness :
    searchFiles [ "r" ] "" .missing = some [] ∧
    searchFiles [ "r" ] "" .file = some [] ∧
    searchFiles [ "r" ] "" .other = some [] ∧
    ∀ cs, searchFiles [ "r" ] "" (.dir false cs) = none :=
  C6_unreadable_root_crashes_worker [ "r" ] "" ⟨[]⟩ (by decide) (by decide)

/-- C7: every path in a completed scan's result is the root extended by the
bare name of some child, and that bare name satisfies the compiled
case-insensitive matcher — no non-matching entry is ever included. -/
theorem C7_results_match_pattern (root : List String) (term : String)
    (r : CompiledRegex) (tree : FSNode) (res : List (List String))
    (p : List String)
    (_hmod : patternModelled term = true)
    (hc : regexNew term = some r)
    (hs : searchFiles root term tree = some res)
    (hp : p ∈ res) :
    ∃ name, p = root ++ [name] ∧ isMatch r name = true := by
  have hs' : searchFilesRecursive root tree r = some res := by
    simp only [searchFiles, hc] at hs
    exact hs
  obtain ⟨name, nd, children, -, -, -, hm, hpath⟩ := mem_scan hs' hp
  exact ⟨name, hpath, hm⟩

/-- C7 witness: the §8 scenario; the entry `a/Foo` carries the bare name
`Foo`, which matches `foo` case-insensitively. -/
theorem C7_results_match_pattern_witness :
    ∃ name, [ "a", "Foo" ] = [ "a" ] ++ [name] ∧
      isMatch ⟨[ 'f', 'o', 'o' ]⟩ name = true :=
  C7_results_match_pattern [ "a" ] "foo" ⟨[ 'f', 'o', 'o' ]⟩ scenarioTree
    [ [ "a", "foo.txt" ], [ "a", "Foo" ] ] [ "a", "Foo" ]
    (by decide) (by decide) (by decide) (by decide)

/-- C8: every path in a completed scan's result extends the root by a
nonempty component list: no returned path lies outside the root's
subtree. -/
theorem C8_results_under_root (root : List String) (term : String)
    (tree : FSNode) (res : List (List String)) (p : List String)
    (hs : searchFiles root term tree = some res) (hp : p ∈ res) :
    ∃ rest, rest ≠ [] ∧ p = root ++ rest := by
  cases hreg : regexNew term with
  | none =>
      simp only [searchFiles, hreg] at hs
      exact Option.noConfusion hs
  | some r =>
      have hs' : searchFilesRecursive root tree r = some res := by
        simp only [searchFiles, hreg] at hs
        exact hs
      obtain ⟨name, nd, children, -, -, -, -, hpath⟩ := mem_scan hs' hp
      exact ⟨[name], by simp, hpath⟩

/-- C8 witness: in the §8 scenario the returned path `a/Foo` is the root
`a` extended by a nonempty component list. -/
theorem C8_results_under_root_witness :
    ∃ rest, rest ≠ [] ∧ [ "a", "Foo" ] = [ "a" ] ++ rest :=
  C8_results_under_root [ "a" ] "foo" scenarioTree
    [ [ "a", "foo.txt" ], [ "a", "Foo" ] ] [ "a", "Foo" ]
    (by decide) (by decide)

/-- C9: a completed scan includes a path only for a child that was
enumerated with a UTF-8-decodable name and classified as a regular file or
a directory; and when every enumerated child is undecodable or of another
kind (e.g. a broken symlink), the result is empty — such entries are
omitted no matter what their names are. -/
theorem C9_only_decodable_file_or_dir (root : List String) (term : String)
    (cs : List (Option (Option String × FSNode))) (res : List (List String))
    (hs : searchFiles root term (.dir true cs) = some res) :
    (∀ p ∈ res, ∃ name nd, some (some name, nd) ∈ cs ∧
        isFileOrDir nd = true ∧ p = root ++ [name]) ∧
    ((∀ item ∈ cs, ∀ nm nd, item = some (nm, nd) →
        nm = none ∨ isFileOrDir nd = false) → res = []) := by
  cases hreg : regexNew term with
  | none =>
      simp only [searchFiles, hreg] at hs
      exact Option.noConfusion hs
  | some r =>
      have hs' : searchFilesRecursive root (.dir true cs) r = some res := by
        simp only [searchFiles, hreg] at hs
        exact hs
      constructor
      · intro p hp
        obtain ⟨name, nd, children, hdir, hmem, helig, -, hpath⟩ :=
          mem_scan hs' hp
        have hcs : children = cs := by
          injection hdir with h1 h2
          exact h2.symm
        subst hcs
        exact ⟨name, nd, hmem, helig, hpath⟩
      · intro hall
        have hres : res =
            cs.filterMap (fun item => item.bind (childResult root r)) := by
          simp only [searchFilesRecursive] at hs'
          exact (Option.some.inj hs').symm
        subst hres
        rw [List.filterMap_eq_nil_iff]
        intro item hitem
        cases item with
        | none => rfl
        | some c =>
            obtain ⟨nm, nd⟩ := c
            have hbad := hall (some (nm, nd)) hitem nm nd rfl
            show childResult root r (nm, nd) = none
            cases hbad with
            | inl h => subst h; simp [childResult]
            | inr h => simp [childResult, h]

/-- C9 witness: a root whose children are a broken symlink named
`match.txt` (kind neither file nor directory) and an entry with an
undecodable name; the scan with the empty pattern (which matches every
name) returns nothing. -/
theorem C9_only_decodable_file_or_dir_witness :
    (∀ p ∈ ([] : List (List String)), ∃ name nd,
        some (some name, nd) ∈
          [ some (some "match.txt", FSNode.other),
            some ((none : Option String), FSNode.file) ] ∧
        isFileOrDir nd = true ∧ p = [ "r" ] ++ [name]) ∧
    ((∀ item ∈ [ some (some "match.txt", FSNode.other),
            some ((none : Option String), FSNode.file) ],
        ∀ nm nd, item = some (nm, nd) →
        nm = none ∨ isFileOrDir nd = false) → ([] : List (List String)) = []) :=
  C9_only_decodable_file_or_dir [ "r" ] ""
    [ some (some "match.txt", FSNode.other),
      some ((none : Option String), FSNode.file) ] [] (by decide)

/-- C10: confirming a folder in the choose-directory dialog replaces the
root path with the chosen folder, resets the displayed result list to
empty and leaves the search term unchanged; cancelling the dialog leaves
the whole state unchanged (and the command unhandled). -/
theorem C10_choose_directory_frame (s : AppState) (folder : List String) :
    delegateCommand s (.showOpenPanel (some folder)) =
      ({ root_path := folder, search_term := s.search_term,
         search_results := [] }, true) ∧
    delegateCommand s (.showOpenPanel none) = (s, false) :=
  ⟨rfl, rfl⟩
